import Mathlib

/-!
Verification of the Snake402 pay-per-play server core.

The development embeds the server module (session registry, score
submission, manual payment verification, 24h payout scheduler) and the
SQLite-backed stats store (`Database`) as pure Lean functions.
Wallet addresses and session ids are opaque strings in the source and are
modelled as natural-number identifiers; timestamps (`Date.now()`) are
passed explicitly as natural numbers; monetary amounts (USDC, stored as
SQL `REAL` and computed with JS numbers) are modelled as rationals.
-/

namespace Snake402

/-! ### Association-list model of the JS `Map` and of SQL tables keyed by wallet -/

/-- Lookup in a JS `Map`, modelled as an association list. -/
def mapGet {α : Type} (k : Nat) : List (Nat × α) → Option α
  | [] => none
  | (k2, v) :: rest => if k2 = k then some v else mapGet k rest

/-- `Map.set`: replaces the binding in place if the key is present, else appends. -/
def mapSet {α : Type} (k : Nat) (v : α) : List (Nat × α) → List (Nat × α)
  | [] => [(k, v)]
  | (k2, v2) :: rest => if k2 = k then (k, v) :: rest else (k2, v2) :: mapSet k v rest

/-- `Map.delete`: removes the binding of `k` (keys are unique in a JS `Map`). -/
def mapDelete {α : Type} (k : Nat) : List (Nat × α) → List (Nat × α)
  | [] => []
  | (k2, v2) :: rest => if k2 = k then rest else (k2, v2) :: mapDelete k rest

/-- Building a JS `Set` from a list: keeps the first occurrence of each element. -/
def insertionDedup (l : List Nat) : List Nat :=
  l.foldl (fun acc x => if x ∈ acc then acc else acc ++ [x]) []

/-! ### Data model (server `GameSession`, database rows) -/

/-- In-memory session record of the server (`interface GameSession`). -/
structure GameSession where
  id : Nat
  isPaid : Bool
  createdAt : Nat
  paidAt : Option Nat
  wallet : Option Nat
deriving DecidableEq, Repr

/-- Row of the `player_stats` table (lifetime stats, keyed by wallet). -/
structure PlayerStats where
  wallet : Nat
  totalScore : Nat
  highScore : Nat
  gamesPlayed : Nat
  lastPlayed : Nat
deriving DecidableEq, Repr

/-- Row of the `daily_player_stats` table (keyed by wallet). -/
structure DailyPlayerStats where
  wallet : Nat
  totalScoreDaily : Nat
  highScoreDaily : Nat
  gamesPlayedDaily : Nat
  lastPlayedDaily : Nat
deriving DecidableEq, Repr

/-- Row of the append-only `entry_fees` table. -/
structure FeeRecord where
  amount : ℚ
  timestamp : Nat
deriving DecidableEq, Repr

/-- Leaderboard entry returned by the `getLeaderboard` queries.  The source also
attaches `rank = index + 1`, which no verified operation reads; it is omitted. -/
structure Entry where
  wallet : Nat
  score : Nat
  gamesPlayed : Nat
  lastPlayed : Nat
deriving DecidableEq, Repr

/-- The `type` argument of the leaderboard and sum queries. -/
inductive ScoreKind
  | total
  | high
deriving DecidableEq, Repr

/-- The whole SQLite database state. -/
structure DBState where
  playerStats : List PlayerStats
  dailyPlayerStats : List DailyPlayerStats
  entryFees : List FeeRecord
deriving DecidableEq, Repr

/-! ### Database operations (`Database` class) -/

/-- `Database.getPlayerStats`: `SELECT * FROM player_stats WHERE wallet = ?`. -/
def getPlayerStats (w : Nat) (db : DBState) : Option PlayerStats :=
  db.playerStats.find? (fun r => r.wallet == w)

/-- `INSERT OR REPLACE` into `player_stats` (wallet is the primary key). -/
def upsertPlayer (row : PlayerStats) : List PlayerStats → List PlayerStats
  | [] => [row]
  | r :: rs => if r.wallet = row.wallet then row :: rs else r :: upsertPlayer row rs

/-- `Database.updatePlayerStats`: read-modify-write of the lifetime row.
Returns the updated row together with the new database state. -/
def updatePlayerStats (w score now : Nat) (db : DBState) : PlayerStats × DBState :=
  let currentStats := getPlayerStats w db
  let newTotalScore := ((currentStats.map (fun r => r.totalScore)).getD 0) + score
  let newHighScore := max ((currentStats.map (fun r => r.highScore)).getD 0) score
  let newGamesPlayed := ((currentStats.map (fun r => r.gamesPlayed)).getD 0) + 1
  let row : PlayerStats :=
    { wallet := w, totalScore := newTotalScore, highScore := newHighScore,
      gamesPlayed := newGamesPlayed, lastPlayed := now }
  (row, { db with playerStats := upsertPlayer row db.playerStats })

/-- `Database.getDailyPlayerStats`: `SELECT * FROM daily_player_stats WHERE wallet = ?`. -/
def getDailyPlayerStats (w : Nat) (db : DBState) : Option DailyPlayerStats :=
  db.dailyPlayerStats.find? (fun r => r.wallet == w)

/-- `INSERT OR REPLACE` into `daily_player_stats`. -/
def upsertDaily (row : DailyPlayerStats) : List DailyPlayerStats → List DailyPlayerStats
  | [] => [row]
  | r :: rs => if r.wallet = row.wallet then row :: rs else r :: upsertDaily row rs

/-- `Database.updateDailyPlayerStats`: read-modify-write of the daily row. -/
def updateDailyPlayerStats (w score now : Nat) (db : DBState) : DailyPlayerStats × DBState :=
  let current := getDailyPlayerStats w db
  let newTotal := ((current.map (fun r => r.totalScoreDaily)).getD 0) + score
  let newHigh := max ((current.map (fun r => r.highScoreDaily)).getD 0) score
  let newGames := ((current.map (fun r => r.gamesPlayedDaily)).getD 0) + 1
  let row : DailyPlayerStats :=
    { wallet := w, totalScoreDaily := newTotal, highScoreDaily := newHigh,
      gamesPlayedDaily := newGames, lastPlayedDaily := now }
  (row, { db with dailyPlayerStats := upsertDaily row db.dailyPlayerStats })

/-- The score column selected by a `ScoreKind` on a daily row. -/
def dCol (k : ScoreKind) (r : DailyPlayerStats) : Nat :=
  match k with
  | .total => r.totalScoreDaily
  | .high => r.highScoreDaily

/-- Daily rows satisfying the SQL filter `WHERE <col> > 0`. -/
def rowsPos (k : ScoreKind) (db : DBState) : List DailyPlayerStats :=
  db.dailyPlayerStats.filter (fun r => decide (0 < dCol k r))

/-- Descending order on the selected score column (`ORDER BY <col> DESC`). -/
def scoreGe (k : ScoreKind) (a b : DailyPlayerStats) : Prop :=
  dCol k b ≤ dCol k a

instance (k : ScoreKind) : DecidableRel (scoreGe k) :=
  fun _ _ => Nat.decLe _ _

instance (k : ScoreKind) : IsTotal DailyPlayerStats (scoreGe k) :=
  ⟨fun a b => (Nat.le_total (dCol k a) (dCol k b)).symm⟩

instance (k : ScoreKind) : IsTrans DailyPlayerStats (scoreGe k) :=
  ⟨fun _ _ _ hab hbc => le_trans hbc hab⟩

/-- Sorting step of the daily leaderboard query. -/
def sortRows (k : ScoreKind) (rows : List DailyPlayerStats) : List DailyPlayerStats :=
  List.insertionSort (scoreGe k) rows

/-- Projection of a daily row to the leaderboard entry shape. -/
def entryOf (k : ScoreKind) (r : DailyPlayerStats) : Entry :=
  { wallet := r.wallet, score := dCol k r,
    gamesPlayed := r.gamesPlayedDaily, lastPlayed := r.lastPlayedDaily }

/-- `Database.getDailyLeaderboard`: filter positive scores, sort descending,
apply `LIMIT`. -/
def getDailyLeaderboard (k : ScoreKind) (limit : Nat) (db : DBState) : List Entry :=
  ((sortRows k (rowsPos k db)).take limit).map (entryOf k)

/-- `Database.getDailyScoresSum`: `SELECT COALESCE(SUM(col), 0) ... WHERE col > 0`. -/
def getDailyScoresSum (k : ScoreKind) (db : DBState) : Nat :=
  ((rowsPos k db).map (dCol k)).sum

/-- `Database.getTotalEntryFeesSince`: sum of fee amounts with `timestamp >= cutoff`. -/
def getTotalEntryFeesSince (cutoff : Nat) (db : DBState) : ℚ :=
  ((db.entryFees.filter (fun f => decide (cutoff ≤ f.timestamp))).map
    (fun f => f.amount)).sum

/-- `Database.recordEntryFee`: appends a row to `entry_fees`. -/
def recordEntryFee (amount : ℚ) (now : Nat) (db : DBState) : DBState :=
  { db with entryFees := db.entryFees ++ [FeeRecord.mk amount now] }

/-- `Database.resetDailyStats`:
`UPDATE daily_player_stats SET total_score_daily = 0, high_score_daily = 0,
games_played_daily = 0` — note that `last_played_daily` is not in the SET list. -/
def zeroDaily (r : DailyPlayerStats) : DailyPlayerStats :=
  { r with totalScoreDaily := 0, highScoreDaily := 0, gamesPlayedDaily := 0 }

def resetDailyStats (db : DBState) : DBState :=
  { db with dailyPlayerStats := db.dailyPlayerStats.map zeroDaily }

/-! ### Server state and HTTP handlers (Express server module)

The handlers are embedded for well-typed request bodies; the initial
`!sessionId || !wallet || typeof score !== 'number'` 400 branch of
`POST /api/submit-score` is outside the typed model.  The asynchronous
once-per-session entry-fee recording (`recordedFeeSessions`) is modelled
as completing synchronously. -/

/-- A line of the append-only `payouts.log` audit journal. -/
inductive LogEntry
  | alloc (wallet totalScore highScore : Nat) (reward : ℚ) (timestamp : Nat)
  | treasury (amount : ℚ) (timestamp : Nat)
  | onchainEndCycle (timestamp : Nat)
  | onchainEndCycleError (timestamp : Nat)
deriving DecidableEq, Repr

/-- Mutable module-level state of the server process. -/
structure ServerState where
  sessions : List (Nat × GameSession)
  db : DBState
  recordedFeeSessions : List Nat
  journal : List LogEntry
  lastPayoutAt : Nat
  nextPayoutAt : Nat
deriving DecidableEq, Repr

/-- Response of `POST /api/submit-score`. -/
inductive SubmitResp
  | success (stats : PlayerStats)
  | err (status : Nat) (error : String) (message : String)
deriving DecidableEq, Repr

/-- Whether a submit-score response is the 200 success. -/
def SubmitResp.isOk : SubmitResp → Bool
  | .success _ => true
  | .err _ _ _ => false

/-- The single 403 response the handler produces both when the session is
absent and when it exists but is unpaid. -/
def invalidSessionResp : SubmitResp :=
  SubmitResp.err 403 "Invalid session" "Session not found or payment not verified"

/-- `POST /api/submit-score`: requires a session that exists and is paid;
updates lifetime then daily stats, then deletes the session. -/
def submitScore (sessionId wallet score now : Nat) (st : ServerState) :
    SubmitResp × ServerState :=
  match mapGet sessionId st.sessions with
  | none => (invalidSessionResp, st)
  | some session =>
    if session.isPaid then
      let r1 := updatePlayerStats wallet score now st.db
      let db2 := (updateDailyPlayerStats wallet score now r1.2).2
      (SubmitResp.success r1.1,
        { st with db := db2, sessions := mapDelete sessionId st.sessions })
    else (invalidSessionResp, st)

/-- Response of `POST /api/verify-payment`. -/
inductive VerifyResp
  | verified (sessionId : Nat) (txHash : String)
  | err (status : Nat) (error : String)
deriving DecidableEq, Repr

/-- HTTP status of a verify-payment response. -/
def VerifyResp.status : VerifyResp → Nat
  | .verified _ _ => 200
  | .err s _ => s

/-- Records the entry fee once per session id (`recordedFeeSessions` set). -/
def recordFeeOnce (sessionId : Nat) (fee : ℚ) (now : Nat) (st : ServerState) : ServerState :=
  if sessionId ∈ st.recordedFeeSessions then st
  else
    { st with db := recordEntryFee fee now st.db,
              recordedFeeSessions := sessionId :: st.recordedFeeSessions }

/-- `POST /api/verify-payment`.  `txHash = none` models an absent field and
the empty string is JS-falsy, so both take the missing-hash 400 branch.  In
non-sandbox mode the only check applied to the hash is `txHash.length > 10`
(the blockchain is never consulted; the source marks real verification as a
TODO).  If the session id is unknown a fresh unpaid session is created and
inserted before the hash check. -/
def verifyPayment (sandbox : Bool) (txHash : Option String) (sessionId now : Nat)
    (fee : ℚ) (st : ServerState) : VerifyResp × ServerState :=
  match txHash with
  | none => (VerifyResp.err 400 "Missing transaction hash", st)
  | some tx =>
    if tx.length = 0 then (VerifyResp.err 400 "Missing transaction hash", st)
    else if sandbox then
      let session :=
        match mapGet sessionId st.sessions with
        | some s => s
        | none =>
          { id := sessionId, isPaid := false, createdAt := now, paidAt := none, wallet := none }
      let paid := { session with isPaid := true, paidAt := some now }
      let st2 := recordFeeOnce sessionId fee now
        { st with sessions := mapSet sessionId paid st.sessions }
      (VerifyResp.verified sessionId tx, st2)
    else
      let found := mapGet sessionId st.sessions
      let session :=
        match found with
        | some s => s
        | none =>
          { id := sessionId, isPaid := false, createdAt := now, paidAt := none, wallet := none }
      let sessions1 :=
        match found with
        | some _ => st.sessions
        | none => mapSet sessionId session st.sessions
      if tx.length > 10 then
        let paid := { session with isPaid := true, paidAt := some now }
        let st2 := recordFeeOnce sessionId fee now
          { st with sessions := mapSet sessionId paid sessions1 }
        (VerifyResp.verified sessionId tx, st2)
      else
        (VerifyResp.err 400 "Invalid transaction hash", { st with sessions := sessions1 })

/-! ### Payout engine (`runPayoutCycle`) and 24h scheduler -/

/-- Volume-share map (70% pool): populated only when both the daily total-score
sum and the pool are positive; each leaderboard entry gets
`(score / sumTotalScores) * poolTotal`. -/
def computeRewardTotalMap (poolTotal : ℚ) (sumTotalScores : Nat)
    (totalEntries : List Entry) : List (Nat × ℚ) :=
  if 0 < sumTotalScores ∧ 0 < poolTotal then
    totalEntries.foldl
      (fun m e => mapSet e.wallet (((e.score : ℚ) / (sumTotalScores : ℚ)) * poolTotal) m) []
  else []

/-- Peak-share map (25% pool): tiered distribution over the top three entries
of the daily high-score leaderboard. -/
def computeRewardHighMap (poolHigh : ℚ) (highEntries : List Entry) : List (Nat × ℚ) :=
  if 0 < poolHigh ∧ highEntries ≠ [] then
    match highEntries.take 3 with
    | [] => []
    | [a] => mapSet a.wallet poolHigh []
    | [a, b] => mapSet b.wallet (poolHigh * (30 / 100)) (mapSet a.wallet (poolHigh * (70 / 100)) [])
    | a :: b :: c :: _ =>
      mapSet c.wallet (poolHigh * (15 / 100))
        (mapSet b.wallet (poolHigh * (25 / 100)) (mapSet a.wallet (poolHigh * (60 / 100)) []))
  else []

/-- Observable event of one payout cycle, in program order: audit-journal
writes and the single optional external settlement attempt. -/
inductive CycleEvent
  | journal (e : LogEntry)
  | settleAttempt
deriving DecidableEq, Repr

/-- Whether an event is the journalling of an allocation or of the treasury
amount. -/
def CycleEvent.isAllocOrTreasury : CycleEvent → Bool
  | .journal (LogEntry.alloc _ _ _ _ _) => true
  | .journal (LogEntry.treasury _ _) => true
  | _ => false

/-- Checks that once a settlement attempt occurs, no allocation or treasury
journal write follows it. -/
def allocsBeforeSettlement : List CycleEvent → Bool
  | [] => true
  | CycleEvent.settleAttempt :: rest => rest.all (fun e => !e.isAllocOrTreasury)
  | _ :: rest => allocsBeforeSettlement rest

/-! The payout cycle is embedded compositionally: the locals of the single
`runPayoutCycle` function of the source (`poolTotal`, `poolHigh`,
`poolTreasury`, the reward maps, the `wallets` set and the journal writes)
become named definitions, each a pure function of the pre-cycle state. -/

/-- `totalPool`: entry fees recorded in the last 24 hours before `now`. -/
def cycleTotalPool (now : Nat) (st : ServerState) : ℚ :=
  getTotalEntryFeesSince (now - 86400000) st.db

/-- `poolTotal = totalPool * 0.70`. -/
def cyclePoolTotal (now : Nat) (st : ServerState) : ℚ :=
  cycleTotalPool now st * (70 / 100)

/-- `poolHigh = totalPool * 0.25`. -/
def cyclePoolHigh (now : Nat) (st : ServerState) : ℚ :=
  cycleTotalPool now st * (25 / 100)

/-- `poolTreasury = totalPool * 0.05`. -/
def cyclePoolTreasury (now : Nat) (st : ServerState) : ℚ :=
  cycleTotalPool now st * (5 / 100)

/-- The cycle's `rewardTotalMap`. -/
def cycleRewardTotalMap (now : Nat) (st : ServerState) : List (Nat × ℚ) :=
  computeRewardTotalMap (cyclePoolTotal now st)
    (getDailyScoresSum ScoreKind.total st.db)
    (getDailyLeaderboard ScoreKind.total 1000 st.db)

/-- The cycle's `rewardHighMap`. -/
def cycleRewardHighMap (now : Nat) (st : ServerState) : List (Nat × ℚ) :=
  computeRewardHighMap (cyclePoolHigh now st)
    (getDailyLeaderboard ScoreKind.high 1000 st.db)

/-- `new Set([...rewardTotalMap.keys(), ...rewardHighMap.keys()])`. -/
def cycleWallets (now : Nat) (st : ServerState) : List Nat :=
  insertionDedup
    ((cycleRewardTotalMap now st).map Prod.fst ++ (cycleRewardHighMap now st).map Prod.fst)

/-- The per-wallet `appendPayoutLog` calls (`wallets.forEach`). -/
def cycleAllocEvents (now : Nat) (st : ServerState) : List CycleEvent :=
  (cycleWallets now st).map (fun w =>
    CycleEvent.journal (LogEntry.alloc w
      ((((getDailyLeaderboard ScoreKind.total 1000 st.db).find?
          (fun e => e.wallet == w)).map (fun e => e.score)).getD 0)
      ((((getDailyLeaderboard ScoreKind.high 1000 st.db).find?
          (fun e => e.wallet == w)).map (fun e => e.score)).getD 0)
      (((mapGet w (cycleRewardTotalMap now st)).getD 0)
        + ((mapGet w (cycleRewardHighMap now st)).getD 0)) now))

/-- All journal writes performed before the on-chain block: the per-wallet
allocations followed by the treasury entry. -/
def cyclePreEvents (now : Nat) (st : ServerState) : List CycleEvent :=
  cycleAllocEvents now st ++ [CycleEvent.journal (LogEntry.treasury (cyclePoolTreasury now st) now)]

/-- The optional on-chain `endCycle` block: one settlement attempt followed by
the success or error journal line; skipped entirely when the on-chain gate is
off. -/
def cycleSettleEvents (onchain settleOk : Bool) (now : Nat) : List CycleEvent :=
  if onchain then
    [CycleEvent.settleAttempt,
     CycleEvent.journal
       (if settleOk then LogEntry.onchainEndCycle now else LogEntry.onchainEndCycleError now)]
  else []

/-- The full ordered event trace of one cycle. -/
def cycleEvents (onchain settleOk : Bool) (now : Nat) (st : ServerState) : List CycleEvent :=
  cyclePreEvents now st ++ cycleSettleEvents onchain settleOk now

/-- One payout cycle.  `onchain` abstracts the
`ENABLE_ONCHAIN_PAYOUTS && PRIZE_POOL_CONTRACT && PRIVATE_KEY && BASE_RPC_URL`
gate and `settleOk` the outcome of the external `endCycle` transaction (a
failure is caught and journalled, never rethrown or retried).  The settlement
payload (`winnersArray`/`rewardsArray` in USDC base units) and the
`lastTxHash` bookkeeping are not modelled; the attempt itself is an event.
Returns the new state and the ordered event trace. -/
def runPayoutCycle (onchain settleOk : Bool) (now : Nat) (st : ServerState) :
    ServerState × List CycleEvent :=
  ({ st with
      db := resetDailyStats st.db,
      journal := st.journal ++ (cycleEvents onchain settleOk now st).filterMap (fun e =>
        match e with
        | CycleEvent.journal l => some l
        | CycleEvent.settleAttempt => none),
      lastPayoutAt := now,
      nextPayoutAt := now + 86400000 }, cycleEvents onchain settleOk now st)

/-- State of the cooperative scheduler: the `isPayoutRunning` guard flag and
the number of `runPayoutCycle` invocations currently in flight on the event
loop (a cycle suspends at its awaited database and network calls). -/
structure SchedState where
  isPayoutRunning : Bool
  runningCycles : Nat
deriving DecidableEq, Repr

/-- Outcome of a payout trigger. -/
inductive TriggerResult
  | started
  | rejected
deriving DecidableEq, Repr

/-- Begin of `POST /admin/run-payout`: rejected with 409 if `isPayoutRunning`
is set, otherwise sets the flag and starts a cycle. -/
def adminRunPayout (s : SchedState) : TriggerResult × SchedState :=
  if s.isPayoutRunning then (TriggerResult.rejected, s)
  else (TriggerResult.started, { isPayoutRunning := true, runningCycles := s.runningCycles + 1 })

/-- Firing of `setInterval(runPayoutCycle, 24h)`: the timer invokes
`runPayoutCycle` directly, without consulting or setting `isPayoutRunning`. -/
def timerFire (s : SchedState) : TriggerResult × SchedState :=
  (TriggerResult.started, { s with runningCycles := s.runningCycles + 1 })

/-- Fresh server state (empty session table, empty database). -/
def initialState : ServerState :=
  { sessions := [], db := { playerStats := [], dailyPlayerStats := [], entryFees := [] },
    recordedFeeSessions := [], journal := [], lastPayoutAt := 0, nextPayoutAt := 86400000 }

/-! ### Generic lemmas about the association-list map -/

theorem mapGet_eq_none {α : Type} {k : Nat} :
    ∀ {m : List (Nat × α)}, k ∉ m.map Prod.fst → mapGet k m = none := by
  intro m h
  induction m with
  | nil => rfl
  | cons p rest ih =>
    obtain ⟨k2, v⟩ := p
    simp only [List.map_cons, List.mem_cons, not_or] at h
    simp only [mapGet]
    rw [if_neg (fun he => h.1 he.symm)]
    exact ih h.2

theorem not_mem_keys_of_mapGet_eq_none {α : Type} {k : Nat} :
    ∀ {m : List (Nat × α)}, mapGet k m = none → k ∉ m.map Prod.fst := by
  intro m h hmem
  induction m with
  | nil => simp at hmem
  | cons p rest ih =>
    obtain ⟨k2, v⟩ := p
    simp only [mapGet] at h
    by_cases he : k2 = k
    · rw [if_pos he] at h; exact Option.noConfusion h
    · rw [if_neg he] at h
      simp only [List.map_cons, List.mem_cons] at hmem
      rcases hmem with h1 | h1
      · exact he h1.symm
      · exact ih h h1

theorem mapGet_mapDelete_of_none {α : Type} {k k2 : Nat} :
    ∀ {m : List (Nat × α)}, mapGet k m = none → mapGet k (mapDelete k2 m) = none := by
  intro m h
  induction m with
  | nil => rfl
  | cons p rest ih =>
    obtain ⟨k3, v⟩ := p
    simp only [mapGet] at h
    by_cases he : k3 = k
    · rw [if_pos he] at h; exact Option.noConfusion h
    · rw [if_neg he] at h
      simp only [mapDelete]
      by_cases hd : k3 = k2
      · rw [if_pos hd]; exact h
      · rw [if_neg hd]
        simp only [mapGet, if_neg he]
        exact ih h

theorem mapGet_mapDelete_self {α : Type} {k : Nat} :
    ∀ {m : List (Nat × α)}, (m.map Prod.fst).Nodup → mapGet k (mapDelete k m) = none := by
  intro m hnd
  induction m with
  | nil => rfl
  | cons p rest ih =>
    obtain ⟨k2, v⟩ := p
    simp only [List.map_cons, List.nodup_cons] at hnd
    simp only [mapDelete]
    by_cases he : k2 = k
    · rw [if_pos he]
      exact mapGet_eq_none (he ▸ hnd.1)
    · rw [if_neg he]
      simp only [mapGet, if_neg he]
      exact ih hnd.2

theorem keys_mapDelete_sublist {α : Type} (k : Nat) :
    ∀ (m : List (Nat × α)), ((mapDelete k m).map Prod.fst).Sublist (m.map Prod.fst) := by
  intro m
  induction m with
  | nil => simp [mapDelete]
  | cons p rest ih =>
    obtain ⟨k2, v⟩ := p
    simp only [mapDelete]
    by_cases he : k2 = k
    · rw [if_pos he]
      exact (List.sublist_cons_self _ _)
    · rw [if_neg he]
      simpa using ih.cons₂ k2

theorem keys_mapSet_subset {α : Type} (k : Nat) (v : α) :
    ∀ (m : List (Nat × α)), ((mapSet k v m).map Prod.fst) ⊆ k :: m.map Prod.fst := by
  intro m
  induction m with
  | nil => simp [mapSet]
  | cons p rest ih =>
    obtain ⟨k2, v2⟩ := p
    simp only [mapSet]
    by_cases he : k2 = k
    · subst he
      rw [if_pos rfl]
      intro x hx
      simp only [List.map_cons, List.mem_cons] at hx ⊢
      tauto
    · rw [if_neg he]
      intro x hx
      simp only [List.map_cons, List.mem_cons] at hx ⊢
      rcases hx with h1 | h1
      · exact Or.inr (Or.inl h1)
      · rcases List.mem_cons.mp (ih h1) with h2 | h2
        · exact Or.inl h2
        · exact Or.inr (Or.inr h2)

theorem keys_mapSet_nodup {α : Type} (k : Nat) (v : α) :
    ∀ {m : List (Nat × α)}, (m.map Prod.fst).Nodup → ((mapSet k v m).map Prod.fst).Nodup := by
  intro m hnd
  induction m with
  | nil => simp [mapSet]
  | cons p rest ih =>
    obtain ⟨k2, v2⟩ := p
    simp only [List.map_cons, List.nodup_cons] at hnd
    simp only [mapSet]
    by_cases he : k2 = k
    · rw [if_pos he]
      simp only [List.map_cons, List.nodup_cons]
      exact ⟨he ▸ hnd.1, hnd.2⟩
    · rw [if_neg he]
      simp only [List.map_cons, List.nodup_cons]
      refine ⟨fun hmem => ?_, ih hnd.2⟩
      rcases List.mem_cons.mp (keys_mapSet_subset k v rest hmem) with h1 | h1
      · exact he h1
      · exact hnd.1 h1

theorem mapSet_eq_append {α : Type} {k : Nat} (v : α) :
    ∀ {m : List (Nat × α)}, k ∉ m.map Prod.fst → mapSet k v m = m ++ [(k, v)] := by
  intro m h
  induction m with
  | nil => rfl
  | cons p rest ih =>
    obtain ⟨k2, v2⟩ := p
    simp only [List.map_cons, List.mem_cons, not_or] at h
    simp only [mapSet]
    rw [if_neg (fun he => h.1 he.symm)]
    rw [ih h.2]
    rfl

theorem foldl_mapSet_eq_append {α : Type} (f : Entry → α) :
    ∀ (es : List Entry) (acc : List (Nat × α)),
      (es.map (fun e => e.wallet)).Nodup →
      (∀ e ∈ es, e.wallet ∉ acc.map Prod.fst) →
      es.foldl (fun m e => mapSet e.wallet (f e) m) acc
        = acc ++ es.map (fun e => (e.wallet, f e)) := by
  intro es
  induction es with
  | nil => intro acc _ _; simp
  | cons e rest ih =>
    intro acc hnd hdisj
    simp only [List.map_cons, List.nodup_cons] at hnd
    simp only [List.foldl_cons]
    rw [mapSet_eq_append (f e) (hdisj e (List.mem_cons_self _ _))]
    rw [ih _ hnd.2 ?_]
    · simp
    · intro e2 he2
      rw [List.map_append]
      simp only [List.mem_append, not_or]
      refine ⟨hdisj e2 (List.mem_cons_of_mem _ he2), fun hx => ?_⟩
      have hxe : e2.wallet = e.wallet := by simpa using hx
      exact hnd.1 (hxe ▸ List.mem_map_of_mem (fun x => x.wallet) he2)

theorem mapGet_map_pair {α : Type} (f : Entry → α) :
    ∀ {es : List Entry} {e : Entry}, (es.map (fun x => x.wallet)).Nodup → e ∈ es →
      mapGet e.wallet (es.map (fun x => (x.wallet, f x))) = some (f e) := by
  intro es
  induction es with
  | nil => intro e _ h; simp at h
  | cons a rest ih =>
    intro e hnd hmem
    simp only [List.map_cons, List.nodup_cons] at hnd
    rcases List.mem_cons.mp hmem with he | he
    · subst he
      simp [mapGet]
    · have hne : ¬(a.wallet = e.wallet) :=
        fun h => hnd.1 (h ▸ List.mem_map_of_mem (fun x => x.wallet) he)
      simp only [List.map_cons, mapGet, if_neg hne]
      exact ih hnd.2 he

/-! ### Lemmas about the daily leaderboard pipeline -/

theorem leaderboard_wallets (k : ScoreKind) (limit : Nat) (db : DBState) :
    (getDailyLeaderboard k limit db).map (fun e => e.wallet)
      = ((sortRows k (rowsPos k db)).take limit).map (fun r => r.wallet) := by
  simp only [getDailyLeaderboard, List.map_map]
  rfl

theorem leaderboard_scores (k : ScoreKind) (limit : Nat) (db : DBState) :
    (getDailyLeaderboard k limit db).map (fun e => e.score)
      = ((sortRows k (rowsPos k db)).take limit).map (dCol k) := by
  simp only [getDailyLeaderboard, List.map_map]
  rfl

theorem sortRows_perm (k : ScoreKind) (rows : List DailyPlayerStats) :
    (sortRows k rows).Perm rows :=
  List.perm_insertionSort _ _

theorem rowsPos_wallets_nodup {k : ScoreKind} {db : DBState}
    (hnd : (db.dailyPlayerStats.map (fun r => r.wallet)).Nodup) :
    ((rowsPos k db).map (fun r => r.wallet)).Nodup := by
  have h1 : (rowsPos k db).Sublist db.dailyPlayerStats := List.filter_sublist _
  exact (h1.map (fun r => r.wallet)).nodup hnd

theorem sortRows_wallets_nodup {k : ScoreKind} {db : DBState}
    (hnd : (db.dailyPlayerStats.map (fun r => r.wallet)).Nodup) :
    ((sortRows k (rowsPos k db)).map (fun r => r.wallet)).Nodup := by
  have hp : ((sortRows k (rowsPos k db)).map (fun r => r.wallet)).Perm
      ((rowsPos k db).map (fun r => r.wallet)) :=
    (sortRows_perm k (rowsPos k db)).map (fun r : DailyPlayerStats => r.wallet)
  exact hp.nodup_iff.mpr (rowsPos_wallets_nodup hnd)

theorem leaderboard_wallets_nodup {k : ScoreKind} {db : DBState} (limit : Nat)
    (hnd : (db.dailyPlayerStats.map (fun r => r.wallet)).Nodup) :
    ((getDailyLeaderboard k limit db).map (fun e => e.wallet)).Nodup := by
  rw [leaderboard_wallets]
  have h1 : ((sortRows k (rowsPos k db)).take limit).Sublist (sortRows k (rowsPos k db)) :=
    List.take_sublist limit _
  exact (h1.map (fun r => r.wallet)).nodup (sortRows_wallets_nodup hnd)

theorem sortRows_take_all {k : ScoreKind} {db : DBState} {limit : Nat}
    (h : (rowsPos k db).length ≤ limit) :
    (sortRows k (rowsPos k db)).take limit = sortRows k (rowsPos k db) :=
  List.take_of_length_le (by rw [(sortRows_perm k (rowsPos k db)).length_eq]; exact h)

theorem leaderboard_sorted (k : ScoreKind) (limit : Nat) (db : DBState) :
    (getDailyLeaderboard k limit db).Pairwise (fun a b => b.score ≤ a.score) := by
  have hs : (sortRows k (rowsPos k db)).Pairwise (scoreGe k) :=
    List.sorted_insertionSort (scoreGe k) (rowsPos k db)
  have ht : ((sortRows k (rowsPos k db)).take limit).Pairwise (scoreGe k) :=
    hs.sublist (List.take_sublist limit _)
  exact List.pairwise_map.mpr (ht.imp (fun h => h))

/-! ### Further helper lemmas -/

theorem mapGet_mapSet_self {α : Type} (k : Nat) (v : α) :
    ∀ (m : List (Nat × α)), mapGet k (mapSet k v m) = some v := by
  intro m
  induction m with
  | nil => simp [mapSet, mapGet]
  | cons p rest ih =>
    obtain ⟨k2, v2⟩ := p
    simp only [mapSet]
    by_cases he : k2 = k
    · rw [if_pos he]
      simp [mapGet]
    · rw [if_neg he]
      simp only [mapGet, if_neg he]
      exact ih

theorem find?_upsertPlayer {row : PlayerStats} {w : Nat} (hw : row.wallet = w) :
    ∀ (l : List PlayerStats),
      (upsertPlayer row l).find? (fun r => r.wallet == w) = some row := by
  intro l
  induction l with
  | nil => simp [upsertPlayer, List.find?, hw]
  | cons r rs ih =>
    simp only [upsertPlayer]
    by_cases he : r.wallet = row.wallet
    · rw [if_pos he]
      simp [List.find?, hw]
    · rw [if_neg he]
      rw [List.find?_cons_of_neg _ (by simp [hw ▸ he])]
      exact ih

theorem getPlayerStats_updatePlayerStats (w s now : Nat) (db : DBState) :
    getPlayerStats w (updatePlayerStats w s now db).2 = some (updatePlayerStats w s now db).1 := by
  simp only [updatePlayerStats, getPlayerStats]
  refine find?_upsertPlayer ?_ _
  rfl

theorem find?_map_zeroDaily (w : Nat) :
    ∀ (l : List DailyPlayerStats),
      (l.map zeroDaily).find? (fun r => r.wallet == w)
        = (l.find? (fun r => r.wallet == w)).map zeroDaily := by
  intro l
  induction l with
  | nil => simp
  | cons r rs ih =>
    by_cases he : r.wallet = w
    · simp only [List.map_cons]
      rw [List.find?_cons_of_pos _ (by simpa [zeroDaily] using he),
        List.find?_cons_of_pos _ (by simpa using he)]
      rfl
    · simp only [List.map_cons]
      rw [List.find?_cons_of_neg _ (by simpa [zeroDaily] using he),
        List.find?_cons_of_neg _ (by simpa using he)]
      exact ih

theorem foldl_max_mem : ∀ (l : List Nat) (a : Nat), l.foldl max a = a ∨ l.foldl max a ∈ l := by
  intro l
  induction l with
  | nil => intro a; exact Or.inl rfl
  | cons x xs ih =>
    intro a
    rcases ih (max a x) with h | h
    · rcases max_choice a x with h2 | h2
      · exact Or.inl (by rw [List.foldl_cons, h, h2])
      · exact Or.inr (by rw [List.foldl_cons, h, h2]; exact List.mem_cons_self _ _)
    · exact Or.inr (List.mem_cons_of_mem _ (by rw [List.foldl_cons]; exact h))

theorem le_foldl_max_init : ∀ (l : List Nat) (a : Nat), a ≤ l.foldl max a := by
  intro l
  induction l with
  | nil => intro a; exact le_refl a
  | cons x xs ih =>
    intro a
    rw [List.foldl_cons]
    exact le_trans (Nat.le_max_left a x) (ih (max a x))

theorem le_foldl_max_of_mem : ∀ {l : List Nat} {x : Nat} (a : Nat), x ∈ l → x ≤ l.foldl max a := by
  intro l
  induction l with
  | nil => intro x a h; simp at h
  | cons y ys ih =>
    intro x a h
    rw [List.foldl_cons]
    rcases List.mem_cons.mp h with he | he
    · subst he
      exact le_trans (Nat.le_max_right a x) (le_foldl_max_init ys _)
    · exact ih _ he

theorem list_sum_map_mul_const (c : ℚ) (g : Entry → ℚ) :
    ∀ (l : List Entry), (l.map (fun e => g e * c)).sum = (l.map g).sum * c := by
  intro l
  induction l with
  | nil => simp
  | cons e rest ih =>
    simp only [List.map_cons, List.sum_cons, ih]
    ring

/-! ### Lemmas about score submission -/

theorem submitScore_absent {id : Nat} (w s now : Nat) {st : ServerState}
    (h : mapGet id st.sessions = none) :
    submitScore id w s now st = (invalidSessionResp, st) := by
  simp only [submitScore, h]

theorem submitScore_unpaid {id : Nat} (w s now : Nat) {st : ServerState} {sess : GameSession}
    (h : mapGet id st.sessions = some sess) (hp : sess.isPaid = false) :
    submitScore id w s now st = (invalidSessionResp, st) := by
  simp only [submitScore, h, hp]
  rfl

theorem submitScore_preserves_absent {id : Nat} (sid w s now : Nat) {st : ServerState}
    (h : mapGet id st.sessions = none) :
    mapGet id (submitScore sid w s now st).2.sessions = none := by
  cases hfind : mapGet sid st.sessions with
  | none => simp only [submitScore, hfind]; exact h
  | some sess =>
    by_cases hp : sess.isPaid = true
    · simp only [submitScore, hfind, hp, if_true]
      exact mapGet_mapDelete_of_none h
    · simp only [submitScore, hfind, hp, if_false]
      exact h

/-- A sequence of `POST /api/submit-score` requests `(sessionId, wallet, score)`
applied in order, collecting the responses. -/
def runSubmits : List (Nat × Nat × Nat) → ServerState → List SubmitResp × ServerState
  | [], st => ([], st)
  | q :: rest, st =>
    ((submitScore q.1 q.2.1 q.2.2 0 st).1 ::
        (runSubmits rest (submitScore q.1 q.2.1 q.2.2 0 st).2).1,
      (runSubmits rest (submitScore q.1 q.2.1 q.2.2 0 st).2).2)

theorem runSubmits_absent (id : Nat) :
    ∀ (reqs : List (Nat × Nat × Nat)) (st : ServerState), mapGet id st.sessions = none →
      (∀ pr ∈ reqs.zip (runSubmits reqs st).1, pr.1.1 = id → pr.2 = invalidSessionResp) ∧
      (runSubmits reqs st).2 = (runSubmits (reqs.filter (fun q => !(q.1 == id))) st).2 := by
  intro reqs
  induction reqs with
  | nil => intro st _; exact ⟨by simp [runSubmits], rfl⟩
  | cons q rest ih =>
    intro st h
    by_cases hq : q.1 = id
    · have hsub : submitScore q.1 q.2.1 q.2.2 0 st = (invalidSessionResp, st) :=
        submitScore_absent _ _ _ (hq ▸ h)
      have hfilter : (q :: rest).filter (fun q2 => !(q2.1 == id))
          = rest.filter (fun q2 => !(q2.1 == id)) := by
        simp [List.filter_cons, hq]
      constructor
      · intro pr hpr hid
        simp only [runSubmits, hsub, List.zip_cons_cons] at hpr
        rcases List.mem_cons.mp hpr with he | he
        · rw [he]
        · exact (ih st h).1 pr he hid
      · simp only [runSubmits, hsub, hfilter]
        exact (ih st h).2
    · have h2 : mapGet id (submitScore q.1 q.2.1 q.2.2 0 st).2.sessions = none :=
        submitScore_preserves_absent _ _ _ _ h
      have hfilter : (q :: rest).filter (fun q2 => !(q2.1 == id))
          = q :: rest.filter (fun q2 => !(q2.1 == id)) := by
        simp [List.filter_cons, hq]
      constructor
      · intro pr hpr hid
        simp only [runSubmits, List.zip_cons_cons] at hpr
        rcases List.mem_cons.mp hpr with he | he
        · rw [he] at hid
          exact absurd hid hq
        · exact (ih _ h2).1 pr he hid
      · simp only [runSubmits, hfilter]
        exact (ih _ h2).2

theorem recordFeeOnce_sessions (sid : Nat) (fee : ℚ) (now : Nat) (st : ServerState) :
    (recordFeeOnce sid fee now st).sessions = st.sessions := by
  simp only [recordFeeOnce]
  split <;> rfl

/-! ### Concrete states used by witnesses and counterexamples -/

/-- A session that exists but has not been paid. -/
def sessionUnpaid : GameSession :=
  { id := 1, isPaid := false, createdAt := 0, paidAt := none, wallet := none }

/-- Server state holding only the unpaid session `1`. -/
def stUnpaid : ServerState :=
  { initialState with sessions := [(1, sessionUnpaid)] }

/-- A session already paid, with paid timestamp `3`. -/
def sessionPaidAt3 : GameSession :=
  { id := 1, isPaid := true, createdAt := 0, paidAt := some 3, wallet := none }

/-- Server state holding only the paid session `1`. -/
def stPaid : ServerState :=
  { initialState with sessions := [(1, sessionPaidAt3)] }

/-- A database with one daily row whose `last_played_daily` is nonzero. -/
def dbLastPlayed : DBState :=
  { playerStats :=
      [{ wallet := 1, totalScore := 4, highScore := 4, gamesPlayed := 1, lastPlayed := 5 }],
    dailyPlayerStats :=
      [{ wallet := 1, totalScoreDaily := 4, highScoreDaily := 4, gamesPlayedDaily := 1,
         lastPlayedDaily := 5 }],
    entryFees := [] }

/-! ### C7 — resetDailyStats -/

/-- C7 counterexample: the claim says `resetDaily` zeroes the `last played`
daily field, but `resetDailyStats` leaves `last_played_daily` untouched: on a
row with `lastPlayedDaily = 5` it is still `5 ≠ 0` after the reset. -/
theorem c7_counterexample :
    ((resetDailyStats dbLastPlayed).dailyPlayerStats.map (fun r => r.lastPlayedDaily)) = [5] ∧
    (5 : Nat) ≠ 0 := by
  decide

/-- C7 (amended): `resetDailyStats` zeroes the total-score, high-score and
games-played fields of every daily row, leaves each row's wallet and
`lastPlayedDaily` unchanged, and leaves the lifetime table (and every
lifetime lookup) bit-identical. -/
theorem c7_theorem (w : Nat) (db : DBState) :
    (resetDailyStats db).playerStats = db.playerStats ∧
    getPlayerStats w (resetDailyStats db) = getPlayerStats w db ∧
    getDailyPlayerStats w (resetDailyStats db) = (getDailyPlayerStats w db).map zeroDaily ∧
    (∀ r, getDailyPlayerStats w (resetDailyStats db) = some r →
      r.totalScoreDaily = 0 ∧ r.highScoreDaily = 0 ∧ r.gamesPlayedDaily = 0) ∧
    ((resetDailyStats db).dailyPlayerStats.map (fun r => (r.wallet, r.lastPlayedDaily))
      = db.dailyPlayerStats.map (fun r => (r.wallet, r.lastPlayedDaily))) := by
  refine ⟨rfl, rfl, ?_, ?_, ?_⟩
  · simp only [getDailyPlayerStats, resetDailyStats]
    exact find?_map_zeroDaily w db.dailyPlayerStats
  · intro r hr
    simp only [getDailyPlayerStats, resetDailyStats] at hr
    rw [find?_map_zeroDaily w db.dailyPlayerStats] at hr
    cases hfind : db.dailyPlayerStats.find? (fun r2 => r2.wallet == w) with
    | none => rw [hfind] at hr; exact Option.noConfusion hr
    | some r0 =>
      rw [hfind] at hr
      have : zeroDaily r0 = r := Option.some_injective _ hr
      rw [← this]
      exact ⟨rfl, rfl, rfl⟩
  · simp only [resetDailyStats, List.map_map]
    rfl

/-- C7 witness: the amended theorem evaluated on the concrete one-row state. -/
theorem c7_witness :
    (∀ r, getDailyPlayerStats 1 (resetDailyStats dbLastPlayed) = some r →
      r.totalScoreDaily = 0 ∧ r.highScoreDaily = 0 ∧ r.gamesPlayedDaily = 0) ∧
    getPlayerStats 1 (resetDailyStats dbLastPlayed) = getPlayerStats 1 dbLastPlayed :=
  ⟨(c7_theorem 1 dbLastPlayed).2.2.2.1, (c7_theorem 1 dbLastPlayed).2.1⟩

/-! ### C8 — scheduler overlap guard -/

/-- C8 counterexample: with a payout cycle already in progress
(`isPayoutRunning = true`, one cycle in flight), a timer firing is not
rejected: it starts a second, overlapping cycle. -/
theorem c8_counterexample :
    (timerFire { isPayoutRunning := true, runningCycles := 1 }).1 = TriggerResult.started ∧
    (timerFire { isPayoutRunning := true, runningCycles := 1 }).2.runningCycles = 2 := by
  decide

/-- C8 (amended): only the manual `POST /admin/run-payout` trigger is guarded,
and only by the `isPayoutRunning` flag that manual runs themselves set: a
manual trigger while the flag is set is rejected with no state change, while
a timer trigger always starts a cycle, never consulting the flag. -/
theorem c8_theorem (s : SchedState) (h : s.isPayoutRunning = true) :
    adminRunPayout s = (TriggerResult.rejected, s) ∧
    (∀ s2 : SchedState, (timerFire s2).1 = TriggerResult.started) := by
  constructor
  · simp [adminRunPayout, h]
  · intro s2; rfl

/-- C8 witness: the amended theorem at a concrete in-progress state. -/
theorem c8_witness :
    ({ isPayoutRunning := true, runningCycles := 1 : SchedState }).isPayoutRunning = true ∧
    adminRunPayout { isPayoutRunning := true, runningCycles := 1 }
      = (TriggerResult.rejected, { isPayoutRunning := true, runningCycles := 1 }) :=
  ⟨rfl, (c8_theorem _ rfl).1⟩

/-! ### C2 — consume on an unpaid session -/

/-- C2 counterexample: the claim requires the unpaid-session failure to carry
an error code distinct from the absent-session failure, but the handler
returns the identical 403 response in both cases: in a state where session 1
exists unpaid and session 2 is absent, both calls produce the same response. -/
theorem c2_counterexample :
    (submitScore 1 0 5 0 stUnpaid).1 = (submitScore 2 0 5 0 stUnpaid).1 ∧
    (submitScore 1 0 5 0 stUnpaid).1 = invalidSessionResp ∧
    (mapGet 1 stUnpaid.sessions).map (fun g => g.isPaid) = some false ∧
    mapGet 2 stUnpaid.sessions = none := by
  decide

/-- C2 (amended): a consume on a session that exists but is not paid always
fails with the same 403 Invalid-session response used for an absent session
(the two cases are not distinguished), and the whole server state — stats
store and session registry included — is left unchanged. -/
theorem c2_theorem (id w s now : Nat) (st : ServerState) (sess : GameSession)
    (h : mapGet id st.sessions = some sess) (hp : sess.isPaid = false) :
    submitScore id w s now st = (invalidSessionResp, st) :=
  submitScore_unpaid w s now h hp

/-- C2 witness: the amended theorem at the concrete unpaid-session state. -/
theorem c2_witness :
    (mapGet 1 stUnpaid.sessions = some sessionUnpaid ∧ sessionUnpaid.isPaid = false) ∧
    submitScore 1 0 5 0 stUnpaid = (invalidSessionResp, stUnpaid) :=
  ⟨⟨by decide, by decide⟩, c2_theorem 1 0 5 0 stUnpaid sessionUnpaid (by decide) (by decide)⟩

/-! ### C3 — verify-payment on unknown or already-paid sessions -/

/-- C3 counterexample: `POST /api/verify-payment` on a session id unknown to
the registry does not fail with a not-found error: on the empty registry with
a txHash longer than 10 characters it returns the 200 verified response and
creates (and marks paid) a brand-new session. -/
theorem c3_counterexample :
    (verifyPayment false (some "12345678901") 5 0 1 initialState).1
      = VerifyResp.verified 5 "12345678901" ∧
    (mapGet 5 (verifyPayment false (some "12345678901") 5 0 1 initialState).2.sessions).isSome
      = true := by
  decide

/-- C3 (amended): in non-sandbox mode with a txHash longer than 10
characters, verify-payment on an unknown session id creates a fresh session
and marks it paid, returning 200; on an already-paid session it keeps
`isPaid` true but overwrites the paid timestamp with the current time. -/
theorem c3_theorem (sid now : Nat) (fee : ℚ) (tx : String) (st : ServerState)
    (htx : 10 < tx.length) :
    (mapGet sid st.sessions = none →
      (verifyPayment false (some tx) sid now fee st).1 = VerifyResp.verified sid tx ∧
      mapGet sid (verifyPayment false (some tx) sid now fee st).2.sessions =
        some { id := sid, isPaid := true, createdAt := now, paidAt := some now,
               wallet := none }) ∧
    (∀ sess, mapGet sid st.sessions = some sess → sess.isPaid = true →
      (verifyPayment false (some tx) sid now fee st).1 = VerifyResp.verified sid tx ∧
      mapGet sid (verifyPayment false (some tx) sid now fee st).2.sessions =
        some { sess with isPaid := true, paidAt := some now }) := by
  have h0 : ¬(tx.length = 0) := by omega
  constructor
  · intro h
    simp only [verifyPayment, if_neg h0, if_neg Bool.false_ne_true, h]
    rw [if_pos htx]
    refine ⟨rfl, ?_⟩
    rw [recordFeeOnce_sessions, mapGet_mapSet_self]
  · intro sess h hp
    simp only [verifyPayment, if_neg h0, if_neg Bool.false_ne_true, h]
    rw [if_pos htx]
    refine ⟨rfl, ?_⟩
    rw [recordFeeOnce_sessions, mapGet_mapSet_self]

/-- C3 witness: on the concrete already-paid session (paid timestamp 3), a
second verify-payment at time 99 overwrites the paid timestamp. -/
theorem c3_witness :
    (10 < ("12345678901" : String).length ∧
      mapGet 1 stPaid.sessions = some sessionPaidAt3 ∧ sessionPaidAt3.isPaid = true) ∧
    mapGet 1 (verifyPayment false (some "12345678901") 1 99 1 stPaid).2.sessions =
      some { sessionPaidAt3 with isPaid := true, paidAt := some 99 } :=
  ⟨⟨by decide, by decide, by decide⟩,
    ((c3_theorem 1 99 1 "12345678901" stPaid (by decide)).2 sessionPaidAt3
      (by decide) (by decide)).2⟩

/-! ### C10 — verify-payment acceptance condition in non-sandbox mode -/

theorem verifyPayment_valid_resp (tx : String) (sid now : Nat) (fee : ℚ) (st : ServerState)
    (htx : 10 < tx.length) :
    (verifyPayment false (some tx) sid now fee st).1 = VerifyResp.verified sid tx ∧
    (mapGet sid (verifyPayment false (some tx) sid now fee st).2.sessions).map
      (fun g => g.isPaid) = some true := by
  have h0 : ¬(tx.length = 0) := by omega
  simp only [verifyPayment, if_neg h0, if_neg Bool.false_ne_true]
  cases hfound : mapGet sid st.sessions with
  | none =>
    rw [if_pos htx]
    refine ⟨rfl, ?_⟩
    rw [recordFeeOnce_sessions, mapGet_mapSet_self]
    rfl
  | some sess =>
    rw [if_pos htx]
    refine ⟨rfl, ?_⟩
    rw [recordFeeOnce_sessions, mapGet_mapSet_self]
    rfl

theorem verifyPayment_status_le10 (tx : String) (sid now : Nat) (fee : ℚ) (st : ServerState)
    (h10 : ¬ 10 < tx.length) :
    (verifyPayment false (some tx) sid now fee st).1.status = 400 := by
  by_cases h0 : tx.length = 0
  · simp only [verifyPayment, if_pos h0]
    rfl
  · simp only [verifyPayment, if_neg h0, if_neg Bool.false_ne_true]
    rw [if_neg h10]
    rfl

/-- C10: in non-sandbox mode, `POST /api/verify-payment` returns a 400 error
exactly when the transaction hash is absent (or JS-falsy) or at most 10
characters long; for any longer string it marks the session paid (creating it
if needed) and returns 200, with no blockchain check modelled anywhere in the
handler. -/
theorem c10_theorem (txHash : Option String) (sid now : Nat) (fee : ℚ) (st : ServerState) :
    ((verifyPayment false txHash sid now fee st).1.status = 400 ↔
      (txHash = none ∨ ∃ s, txHash = some s ∧ s.length ≤ 10)) ∧
    (∀ s, txHash = some s → 10 < s.length →
      (verifyPayment false txHash sid now fee st).1 = VerifyResp.verified sid s ∧
      (mapGet sid (verifyPayment false txHash sid now fee st).2.sessions).map
        (fun g => g.isPaid) = some true) := by
  constructor
  · cases txHash with
    | none => exact ⟨fun _ => Or.inl rfl, fun _ => rfl⟩
    | some tx =>
      by_cases h10 : 10 < tx.length
      · rw [(verifyPayment_valid_resp tx sid now fee st h10).1]
        constructor
        · intro hc
          exact absurd hc (by simp [VerifyResp.status])
        · rintro (hc | ⟨s2, hs2, hlen⟩)
          · exact Option.noConfusion hc
          · rw [Option.some.inj hs2] at h10
            exact absurd hlen (by omega)
      · rw [verifyPayment_status_le10 tx sid now fee st h10]
        exact ⟨fun _ => Or.inr ⟨tx, rfl, by omega⟩, fun _ => rfl⟩
  · intro s hs hlen
    subst hs
    exact verifyPayment_valid_resp s sid now fee st hlen

theorem mapGet_mapSet_of_ne {α : Type} {k w : Nat} (hne : ¬(k = w)) (v : α) :
    ∀ (m : List (Nat × α)), mapGet w (mapSet k v m) = mapGet w m := by
  intro m
  induction m with
  | nil => simp [mapSet, mapGet, hne]
  | cons p rest ih =>
    obtain ⟨k2, v2⟩ := p
    simp only [mapSet]
    by_cases he : k2 = k
    · rw [if_pos he]
      simp only [mapGet, if_neg hne, if_neg (he ▸ hne : ¬(k2 = w))]
    · rw [if_neg he]
      simp only [mapGet]
      by_cases he2 : k2 = w
      · rw [if_pos he2, if_pos he2]
      · rw [if_neg he2, if_neg he2]
        exact ih

/-! ### C1 — one consume per session id -/

/-- C1 counterexample: the same session id is consumed successfully twice.
After the first successful submit-score deletes session 1, a second
verify-payment call (with the same 11-character string) re-creates and
re-marks the session, and a second submit-score on the same id succeeds
again — so it is not true that at most one consume ever succeeds per id. -/
theorem c1_counterexample :
    ((submitScore 1 7 100 0
        (verifyPayment false (some "12345678901") 1 0 1 initialState).2).1).isOk = true ∧
    ((submitScore 1 7 50 0
        (verifyPayment false (some "12345678901") 1 0 1
          (submitScore 1 7 100 0
            (verifyPayment false (some "12345678901") 1 0 1 initialState).2).2).2).1).isOk
      = true := by
  decide

/-- C1 (amended): a successful score submission removes the session from the
registry, and as long as the id is not re-created by a further
verify-payment or join call, every subsequent submit-score call with that id
fails with the 403 Invalid-session response (the absent-session failure) and
changes nothing: the final state of any subsequent submit-score sequence is
the same as if the calls with that id had not happened. -/
theorem c1_theorem (id w s now : Nat) (st : ServerState)
    (hnd : (st.sessions.map Prod.fst).Nodup)
    (hok : (submitScore id w s now st).1.isOk = true)
    (reqs : List (Nat × Nat × Nat)) :
    mapGet id (submitScore id w s now st).2.sessions = none ∧
    (∀ pr ∈ reqs.zip (runSubmits reqs (submitScore id w s now st).2).1,
      pr.1.1 = id → pr.2 = invalidSessionResp) ∧
    (runSubmits reqs (submitScore id w s now st).2).2 =
      (runSubmits (reqs.filter (fun q => !(q.1 == id))) (submitScore id w s now st).2).2 := by
  have habs : mapGet id (submitScore id w s now st).2.sessions = none := by
    cases hfind : mapGet id st.sessions with
    | none =>
      rw [submitScore_absent w s now hfind] at hok
      exact absurd hok (by simp [SubmitResp.isOk, invalidSessionResp])
    | some sess =>
      by_cases hp : sess.isPaid = true
      · simp only [submitScore, hfind, hp, if_true]
        exact mapGet_mapDelete_self hnd
      · rw [submitScore_unpaid w s now hfind (by simpa using hp)] at hok
        exact absurd hok (by simp [SubmitResp.isOk, invalidSessionResp])
  exact ⟨habs, (runSubmits_absent id reqs _ habs).1, (runSubmits_absent id reqs _ habs).2⟩

/-- C1 witness: after consuming the concrete paid session 1, a mixed request
sequence gives 403 on the id-1 request and the same final state as without
it. -/
theorem c1_witness :
    ((stPaid.sessions.map Prod.fst).Nodup ∧
      (submitScore 1 7 100 0 stPaid).1.isOk = true) ∧
    (mapGet 1 (submitScore 1 7 100 0 stPaid).2.sessions = none ∧
      (∀ pr ∈ ([(1, 2, 5), (9, 2, 5)] : List (Nat × Nat × Nat)).zip
          (runSubmits [(1, 2, 5), (9, 2, 5)] (submitScore 1 7 100 0 stPaid).2).1,
        pr.1.1 = 1 → pr.2 = invalidSessionResp) ∧
      (runSubmits [(1, 2, 5), (9, 2, 5)] (submitScore 1 7 100 0 stPaid).2).2 =
        (runSubmits (([(1, 2, 5), (9, 2, 5)] : List (Nat × Nat × Nat)).filter
          (fun q => !(q.1 == 1))) (submitScore 1 7 100 0 stPaid).2).2) :=
  ⟨⟨by decide, by decide⟩, c1_theorem 1 7 100 0 stPaid (by decide) (by decide) [(1, 2, 5), (9, 2, 5)]⟩

/-! ### C4 — lifetime stats after a sequence of submissions -/

/-- A sequence of successful score submissions for one player, as performed by
the submit-score handler through `Database.updatePlayerStats`. -/
def runSubmissions (w : Nat) (l : List Nat) (db : DBState) : DBState :=
  l.foldl (fun d s => (updatePlayerStats w s 0 d).2) db

theorem updatePlayerStats_of_some (w s now : Nat) (db : DBState) (r : PlayerStats)
    (h : getPlayerStats w db = some r) :
    (updatePlayerStats w s now db).1 =
      { wallet := w, totalScore := r.totalScore + s, highScore := max r.highScore s,
        gamesPlayed := r.gamesPlayed + 1, lastPlayed := now } := by
  simp only [updatePlayerStats, h]
  rfl

theorem runSubmissions_spec (w : Nat) :
    ∀ (l : List Nat) (db : DBState) (r : PlayerStats), getPlayerStats w db = some r →
      ∃ r2, getPlayerStats w (runSubmissions w l db) = some r2 ∧
        r2.totalScore = r.totalScore + l.sum ∧
        r2.gamesPlayed = r.gamesPlayed + l.length ∧
        r2.highScore = l.foldl max r.highScore := by
  intro l
  induction l with
  | nil =>
    intro db r h
    exact ⟨r, h, by simp [runSubmissions], by simp [runSubmissions], rfl⟩
  | cons s rest ih =>
    intro db r h
    have hrow := updatePlayerStats_of_some w s 0 db r h
    have hlook := getPlayerStats_updatePlayerStats w s 0 db
    rw [hrow] at hlook
    obtain ⟨r2, h2, ht, hg, hh⟩ := ih (updatePlayerStats w s 0 db).2 _ hlook
    refine ⟨r2, ?_, ?_, ?_, ?_⟩
    · simpa [runSubmissions] using h2
    · rw [List.sum_cons]
      simp only at ht
      omega
    · rw [List.length_cons]
      simp only at hg
      omega
    · rw [List.foldl_cons]
      exact hh

/-- C4: starting from no lifetime row, after a nonempty sequence of
successful score submissions with scores `l`, the lifetime row has
`totalScore = Σ l`, `gamesPlayed = l.length`, and `highScore` equal to the
maximum submitted score. -/
theorem c4_theorem (w : Nat) (l : List Nat) (db : DBState)
    (h0 : getPlayerStats w db = none) (hne : l ≠ []) :
    ∃ row, getPlayerStats w (runSubmissions w l db) = some row ∧
      row.totalScore = l.sum ∧ row.gamesPlayed = l.length ∧
      row.highScore ∈ l ∧ (∀ x ∈ l, x ≤ row.highScore) := by
  cases l with
  | nil => exact absurd rfl hne
  | cons s rest =>
    have hrow : (updatePlayerStats w s 0 db).1 =
        { wallet := w, totalScore := s, highScore := s, gamesPlayed := 1, lastPlayed := 0 } := by
      simp only [updatePlayerStats, h0]
      simp
    have hlook := getPlayerStats_updatePlayerStats w s 0 db
    rw [hrow] at hlook
    obtain ⟨r2, h2, ht, hg, hh⟩ := runSubmissions_spec w rest (updatePlayerStats w s 0 db).2 _ hlook
    have ht2 : r2.totalScore = s + rest.sum := ht
    have hg2 : r2.gamesPlayed = 1 + rest.length := hg
    have hh2 : r2.highScore = rest.foldl max s := hh
    refine ⟨r2, by simpa [runSubmissions] using h2, ?_, ?_, ?_, ?_⟩
    · rw [List.sum_cons]
      exact ht2
    · rw [List.length_cons]
      omega
    · rcases foldl_max_mem rest s with hc | hc
      · rw [hh2, hc]
        exact List.mem_cons_self _ _
      · rw [hh2]
        exact List.mem_cons_of_mem _ hc
    · intro x hx
      rw [hh2]
      rcases List.mem_cons.mp hx with he | he
      · subst he
        exact le_foldl_max_init rest x
      · exact le_foldl_max_of_mem s he

/-- C4 witness: submitting scores 3, 7, 5 from an empty database yields
total 15, high 7, games 3. -/
theorem c4_witness :
    (getPlayerStats 0 initialState.db = none ∧ ([3, 7, 5] : List Nat) ≠ []) ∧
    (∃ row, getPlayerStats 0 (runSubmissions 0 [3, 7, 5] initialState.db) = some row ∧
      row.totalScore = ([3, 7, 5] : List Nat).sum ∧
      row.gamesPlayed = ([3, 7, 5] : List Nat).length ∧
      row.highScore ∈ ([3, 7, 5] : List Nat) ∧
      (∀ x ∈ ([3, 7, 5] : List Nat), x ≤ row.highScore)) :=
  ⟨⟨rfl, by decide⟩, c4_theorem 0 [3, 7, 5] initialState.db rfl (by decide)⟩

/-! ### C5 — tiered peak-share distribution -/

/-- Four daily rows with distinct wallets and distinct scores. -/
def dbFour : DBState :=
  { playerStats := [],
    dailyPlayerStats :=
      [{ wallet := 1, totalScoreDaily := 40, highScoreDaily := 40, gamesPlayedDaily := 1,
         lastPlayedDaily := 0 },
       { wallet := 2, totalScoreDaily := 30, highScoreDaily := 30, gamesPlayedDaily := 1,
         lastPlayedDaily := 0 },
       { wallet := 3, totalScoreDaily := 20, highScoreDaily := 20, gamesPlayedDaily := 1,
         lastPlayedDaily := 0 },
       { wallet := 4, totalScoreDaily := 10, highScoreDaily := 10, gamesPlayedDaily := 1,
         lastPlayedDaily := 0 }],
    entryFees := [] }

/-- C5: with `poolByPeak = P > 0`, the peak share over the daily high-score
leaderboard (ranked descending) is: a single qualifier gets `P`; two
qualifiers get `0.70 P` and `0.30 P` in rank order; with three or more, the
top three get `0.60 P`, `0.25 P`, `0.15 P`, and every wallet outside the top
three gets nothing regardless of its score. -/
theorem c5_theorem (P : ℚ) (db : DBState) (entries : List Entry) (m : List (Nat × ℚ))
    (hP : 0 < P)
    (hnd : (db.dailyPlayerStats.map (fun r => r.wallet)).Nodup)
    (he : entries = getDailyLeaderboard ScoreKind.high 1000 db)
    (hm : m = computeRewardHighMap P entries) :
    entries.Pairwise (fun a b => b.score ≤ a.score) ∧
    (∀ a, entries = [a] → mapGet a.wallet m = some P) ∧
    (∀ a b, entries = [a, b] →
      mapGet a.wallet m = some (P * (70 / 100)) ∧
      mapGet b.wallet m = some (P * (30 / 100))) ∧
    (∀ a b c rest, entries = a :: b :: c :: rest →
      mapGet a.wallet m = some (P * (60 / 100)) ∧
      mapGet b.wallet m = some (P * (25 / 100)) ∧
      mapGet c.wallet m = some (P * (15 / 100))) ∧
    (∀ w2, (∀ e ∈ entries.take 3, ¬ e.wallet = w2) → mapGet w2 m = none) := by
  have hend : (entries.map (fun e => e.wallet)).Nodup := by
    rw [he]
    exact leaderboard_wallets_nodup 1000 hnd
  refine ⟨by rw [he]; exact leaderboard_sorted _ _ _, ?_, ?_, ?_, ?_⟩
  · intro a ha
    rw [hm, ha]
    simp only [computeRewardHighMap]
    rw [if_pos ⟨hP, by simp⟩]
    show mapGet a.wallet (mapSet a.wallet P []) = some P
    exact mapGet_mapSet_self _ _ _
  · intro a b hab
    rw [hab] at hend
    have hba : ¬(b.wallet = a.wallet) := by
      simp only [List.map_cons, List.map_nil, List.nodup_cons] at hend
      intro hx
      exact hend.1 (by simp [hx])
    rw [hm, hab]
    simp only [computeRewardHighMap]
    rw [if_pos ⟨hP, by simp⟩]
    constructor
    · show mapGet a.wallet
        (mapSet b.wallet (P * (30 / 100)) (mapSet a.wallet (P * (70 / 100)) [])) = _
      rw [mapGet_mapSet_of_ne hba, mapGet_mapSet_self]
    · show mapGet b.wallet
        (mapSet b.wallet (P * (30 / 100)) (mapSet a.wallet (P * (70 / 100)) [])) = _
      rw [mapGet_mapSet_self]
  · intro a b c rest habc
    rw [habc] at hend
    simp only [List.map_cons, List.nodup_cons] at hend
    have hba : ¬(b.wallet = a.wallet) := fun hx => hend.1 (by simp [hx])
    have hca : ¬(c.wallet = a.wallet) := fun hx => hend.1 (by simp [hx])
    have hcb : ¬(c.wallet = b.wallet) := fun hx => hend.2.1 (by simp [hx])
    rw [hm, habc]
    simp only [computeRewardHighMap]
    rw [if_pos ⟨hP, by simp⟩]
    refine ⟨?_, ?_, ?_⟩
    · show mapGet a.wallet (mapSet c.wallet (P * (15 / 100)) (mapSet b.wallet (P * (25 / 100))
        (mapSet a.wallet (P * (60 / 100)) []))) = _
      rw [mapGet_mapSet_of_ne hca, mapGet_mapSet_of_ne hba, mapGet_mapSet_self]
    · show mapGet b.wallet (mapSet c.wallet (P * (15 / 100)) (mapSet b.wallet (P * (25 / 100))
        (mapSet a.wallet (P * (60 / 100)) []))) = _
      rw [mapGet_mapSet_of_ne hcb, mapGet_mapSet_self]
    · show mapGet c.wallet (mapSet c.wallet (P * (15 / 100)) (mapSet b.wallet (P * (25 / 100))
        (mapSet a.wallet (P * (60 / 100)) []))) = _
      rw [mapGet_mapSet_self]
  · intro w2 hw2
    rw [hm]
    simp only [computeRewardHighMap]
    by_cases hcond : 0 < P ∧ entries ≠ []
    · rw [if_pos hcond]
      cases hshape : entries.take 3 with
      | nil => rfl
      | cons a tail =>
        have hna : ¬(a.wallet = w2) := hw2 a (by rw [hshape]; exact List.mem_cons_self _ _)
        cases tail with
        | nil =>
          show mapGet w2 (mapSet a.wallet P []) = none
          rw [mapGet_mapSet_of_ne hna]
          rfl
        | cons b tail2 =>
          have hnb : ¬(b.wallet = w2) := hw2 b (by
            rw [hshape]
            exact List.mem_cons_of_mem _ (List.mem_cons_self _ _))
          cases tail2 with
          | nil =>
            show mapGet w2
              (mapSet b.wallet (P * (30 / 100)) (mapSet a.wallet (P * (70 / 100)) [])) = none
            rw [mapGet_mapSet_of_ne hnb, mapGet_mapSet_of_ne hna]
            rfl
          | cons c tail3 =>
            have hnc : ¬(c.wallet = w2) := hw2 c (by
              rw [hshape]
              exact List.mem_cons_of_mem _ (List.mem_cons_of_mem _ (List.mem_cons_self _ _)))
            show mapGet w2 (mapSet c.wallet (P * (15 / 100)) (mapSet b.wallet (P * (25 / 100))
              (mapSet a.wallet (P * (60 / 100)) []))) = none
            rw [mapGet_mapSet_of_ne hnc, mapGet_mapSet_of_ne hnb, mapGet_mapSet_of_ne hna]
            rfl
    · rw [if_neg hcond]
      rfl

/-- C5 witness: the theorem on the four-player database with `P = 2`; the top
three (wallets 1, 2, 3) get the 60/25/15 split and wallet 4 gets nothing. -/
theorem c5_witness :
    (0 < (2 : ℚ) ∧ (dbFour.dailyPlayerStats.map (fun r => r.wallet)).Nodup) ∧
    ((getDailyLeaderboard ScoreKind.high 1000 dbFour).Pairwise (fun a b => b.score ≤ a.score) ∧
      (∀ a, getDailyLeaderboard ScoreKind.high 1000 dbFour = [a] →
        mapGet a.wallet (computeRewardHighMap 2 (getDailyLeaderboard ScoreKind.high 1000 dbFour))
          = some 2) ∧
      (∀ a b, getDailyLeaderboard ScoreKind.high 1000 dbFour = [a, b] →
        mapGet a.wallet (computeRewardHighMap 2 (getDailyLeaderboard ScoreKind.high 1000 dbFour))
            = some (2 * (70 / 100)) ∧
        mapGet b.wallet (computeRewardHighMap 2 (getDailyLeaderboard ScoreKind.high 1000 dbFour))
            = some (2 * (30 / 100))) ∧
      (∀ a b c rest, getDailyLeaderboard ScoreKind.high 1000 dbFour = a :: b :: c :: rest →
        mapGet a.wallet (computeRewardHighMap 2 (getDailyLeaderboard ScoreKind.high 1000 dbFour))
            = some (2 * (60 / 100)) ∧
        mapGet b.wallet (computeRewardHighMap 2 (getDailyLeaderboard ScoreKind.high 1000 dbFour))
            = some (2 * (25 / 100)) ∧
        mapGet c.wallet (computeRewardHighMap 2 (getDailyLeaderboard ScoreKind.high 1000 dbFour))
            = some (2 * (15 / 100))) ∧
      (∀ w2, (∀ e ∈ (getDailyLeaderboard ScoreKind.high 1000 dbFour).take 3, ¬ e.wallet = w2) →
        mapGet w2 (computeRewardHighMap 2 (getDailyLeaderboard ScoreKind.high 1000 dbFour))
          = none)) :=
  ⟨⟨by norm_num, by decide⟩,
    c5_theorem 2 dbFour (getDailyLeaderboard ScoreKind.high 1000 dbFour)
      (computeRewardHighMap 2 (getDailyLeaderboard ScoreKind.high 1000 dbFour))
      (by norm_num) (by decide) rfl rfl⟩

/-! ### C6 — volume-share distribution -/

theorem keys_foldl_mapSet_subset (f : Entry → ℚ) :
    ∀ (es : List Entry) (acc : List (Nat × ℚ)),
      ((es.foldl (fun m e => mapSet e.wallet (f e) m) acc).map Prod.fst) ⊆
        acc.map Prod.fst ++ es.map (fun e => e.wallet) := by
  intro es
  induction es with
  | nil => intro acc; simp
  | cons e rest ih =>
    intro acc
    simp only [List.foldl_cons]
    intro x hx
    have h1 := ih (mapSet e.wallet (f e) acc) hx
    rw [List.mem_append] at h1
    rcases h1 with h1 | h1
    · rcases List.mem_cons.mp (keys_mapSet_subset e.wallet (f e) acc h1) with h2 | h2
      · subst h2
        simp
      · simp [List.mem_append, h2]
    · simp [List.mem_append, h1]

theorem keys_computeRewardTotalMap_subset (p : ℚ) (sumT : Nat) (es : List Entry) :
    ((computeRewardTotalMap p sumT es).map Prod.fst) ⊆ es.map (fun e => e.wallet) := by
  simp only [computeRewardTotalMap]
  by_cases hc : 0 < sumT ∧ 0 < p
  · rw [if_pos hc]
    intro x hx
    have h2 := keys_foldl_mapSet_subset _ es [] hx
    simpa using h2
  · rw [if_neg hc]
    simp

/-- 1001 daily rows: wallet `i` has daily total and high `1001 - i`, all
positive, so wallet `1000` (score 1) is ranked 1001st. -/
def bigDailyTable : List DailyPlayerStats :=
  (List.range 1001).map (fun i =>
    { wallet := i, totalScoreDaily := 1001 - i, highScoreDaily := 1001 - i,
      gamesPlayedDaily := 1, lastPlayedDaily := 0 })

/-- Database whose daily table has 1001 players with positive daily totals. -/
def bigDb : DBState :=
  { playerStats := [], dailyPlayerStats := bigDailyTable, entryFees := [] }

set_option maxRecDepth 100000 in
/-- C6 counterexample: with 1001 players all having positive daily totals and
a positive pool and score sum, the player ranked 1001st (wallet 1000,
`dailyTotal = 1`) receives no volume share at all, because the reward map is
built from the daily leaderboard capped at `LIMIT 1000` — contradicting the
claim that each player with `dailyTotal > 0` receives
`dailyTotal / sum × poolByVolume`. -/
theorem c6_counterexample :
    (∃ r ∈ bigDb.dailyPlayerStats, r.wallet = 1000 ∧ 0 < r.totalScoreDaily) ∧
    0 < getDailyScoresSum ScoreKind.total bigDb ∧
    0 < (1 : ℚ) ∧
    mapGet 1000 (computeRewardTotalMap 1 (getDailyScoresSum ScoreKind.total bigDb)
      (getDailyLeaderboard ScoreKind.total 1000 bigDb)) = none := by
  refine ⟨⟨_, List.mem_map_of_mem _ (List.mem_range.mpr (by omega : (1000 : Nat) < 1001)),
      rfl, by decide⟩, by decide, by norm_num, ?_⟩
  apply mapGet_eq_none
  intro hmem
  have h2 := keys_computeRewardTotalMap_subset 1 (getDailyScoresSum ScoreKind.total bigDb)
    (getDailyLeaderboard ScoreKind.total 1000 bigDb) hmem
  have hc : ((getDailyLeaderboard ScoreKind.total 1000 bigDb).map
      (fun e => e.wallet)).contains 1000 = false := by decide
  simp at hc
  obtain ⟨e, he, hwe⟩ := List.mem_map.mp h2
  exact absurd hwe (hc e he)

/-- C6 (amended): provided at most 1000 players have a positive daily total
(the `LIMIT 1000` of the leaderboard feeding the reward map), every player
with `dailyTotal > 0` receives exactly `dailyTotal / sum × poolByVolume`
and the shares sum to exactly `poolByVolume` (rational arithmetic); when the
daily-total sum is zero no volume rewards are allocated and no division is
performed. -/
theorem c6_theorem (poolV : ℚ) (db : DBState) (m : List (Nat × ℚ))
    (hnd : (db.dailyPlayerStats.map (fun r => r.wallet)).Nodup)
    (hcount : (rowsPos ScoreKind.total db).length ≤ 1000)
    (hm : m = computeRewardTotalMap poolV (getDailyScoresSum ScoreKind.total db)
      (getDailyLeaderboard ScoreKind.total 1000 db)) :
    (0 < getDailyScoresSum ScoreKind.total db → 0 < poolV →
      (∀ r ∈ db.dailyPlayerStats, 0 < r.totalScoreDaily →
        mapGet r.wallet m
          = some (((r.totalScoreDaily : ℚ)
              / ((getDailyScoresSum ScoreKind.total db : Nat) : ℚ)) * poolV)) ∧
      (m.map Prod.snd).sum = poolV) ∧
    (getDailyScoresSum ScoreKind.total db = 0 → m = []) := by
  constructor
  · intro hS hp
    have hentries : getDailyLeaderboard ScoreKind.total 1000 db
        = (sortRows ScoreKind.total (rowsPos ScoreKind.total db)).map (entryOf ScoreKind.total) := by
      simp only [getDailyLeaderboard, sortRows_take_all hcount]
    have hndE : ((getDailyLeaderboard ScoreKind.total 1000 db).map (fun e => e.wallet)).Nodup :=
      leaderboard_wallets_nodup 1000 hnd
    have hmfold : m = (getDailyLeaderboard ScoreKind.total 1000 db).map
        (fun e => (e.wallet,
          ((e.score : ℚ) / ((getDailyScoresSum ScoreKind.total db : Nat) : ℚ)) * poolV)) := by
      rw [hm]
      simp only [computeRewardTotalMap]
      rw [if_pos ⟨hS, hp⟩]
      rw [foldl_mapSet_eq_append _ _ [] hndE (by simp), List.nil_append]
    constructor
    · intro r hr hrpos
      have hrfilter : r ∈ rowsPos ScoreKind.total db := by
        rw [rowsPos, List.mem_filter]
        exact ⟨hr, by simpa [dCol] using hrpos⟩
      have hrsort : r ∈ sortRows ScoreKind.total (rowsPos ScoreKind.total db) :=
        (sortRows_perm _ _).mem_iff.mpr hrfilter
      have hrent : entryOf ScoreKind.total r ∈ getDailyLeaderboard ScoreKind.total 1000 db := by
        rw [hentries]
        exact List.mem_map_of_mem _ hrsort
      have hlk := mapGet_map_pair
        (fun e => ((e.score : ℚ) / ((getDailyScoresSum ScoreKind.total db : Nat) : ℚ)) * poolV)
        hndE hrent
      rw [hmfold]
      exact hlk
    · rw [hmfold, List.map_map]
      have hstep : (Prod.snd ∘ fun e : Entry => (e.wallet,
          ((e.score : ℚ) / ((getDailyScoresSum ScoreKind.total db : Nat) : ℚ)) * poolV))
          = fun e : Entry =>
            ((e.score : ℚ) / ((getDailyScoresSum ScoreKind.total db : Nat) : ℚ)) * poolV := rfl
      rw [hstep]
      have hfactor : ((getDailyLeaderboard ScoreKind.total 1000 db).map
          (fun e => ((e.score : ℚ) / ((getDailyScoresSum ScoreKind.total db : Nat) : ℚ)) * poolV)).sum
          = ((getDailyLeaderboard ScoreKind.total 1000 db).map (fun e => (e.score : ℚ))).sum
            * (poolV / ((getDailyScoresSum ScoreKind.total db : Nat) : ℚ)) := by
        rw [← list_sum_map_mul_const]
        congr 1
        apply List.map_congr_left
        intro e _
        ring
      have hperm : ((sortRows ScoreKind.total (rowsPos ScoreKind.total db)).map
            (dCol ScoreKind.total)).sum
          = ((rowsPos ScoreKind.total db).map (dCol ScoreKind.total)).sum :=
        ((sortRows_perm _ _).map (dCol ScoreKind.total)).sum_eq
      have hscore : ((getDailyLeaderboard ScoreKind.total 1000 db).map
            (fun e => (e.score : ℚ))).sum
          = ((getDailyScoresSum ScoreKind.total db : Nat) : ℚ) := by
        have h1 : (getDailyLeaderboard ScoreKind.total 1000 db).map (fun e => (e.score : ℚ))
            = ((sortRows ScoreKind.total (rowsPos ScoreKind.total db)).map
                (dCol ScoreKind.total)).map (fun n : Nat => (n : ℚ)) := by
          rw [hentries, List.map_map, List.map_map]
          rfl
        rw [h1, ← Nat.cast_list_sum, hperm]
        rfl
      rw [hfactor, hscore]
      have hS0 : ((getDailyScoresSum ScoreKind.total db : Nat) : ℚ) ≠ 0 :=
        ne_of_gt (by exact_mod_cast hS)
      rw [mul_comm, div_mul_cancel₀ _ hS0]
  · intro hS0
    rw [hm]
    simp only [computeRewardTotalMap]
    rw [if_neg (by simp [hS0])]

/-- Two daily rows used by the C6 witness. -/
def dbTwo : DBState :=
  { playerStats := [],
    dailyPlayerStats :=
      [{ wallet := 1, totalScoreDaily := 10, highScoreDaily := 10, gamesPlayedDaily := 1,
         lastPlayedDaily := 0 },
       { wallet := 2, totalScoreDaily := 30, highScoreDaily := 30, gamesPlayedDaily := 1,
         lastPlayedDaily := 0 }],
    entryFees := [] }

/-- C6 witness: two players with daily totals 10 and 30 and pool 2: shares
are 10/40×2 and 30/40×2, summing to 2. -/
theorem c6_witness :
    ((dbTwo.dailyPlayerStats.map (fun r => r.wallet)).Nodup ∧
      (rowsPos ScoreKind.total dbTwo).length ≤ 1000) ∧
    ((0 < getDailyScoresSum ScoreKind.total dbTwo → 0 < (2 : ℚ) →
      (∀ r ∈ dbTwo.dailyPlayerStats, 0 < r.totalScoreDaily →
        mapGet r.wallet (computeRewardTotalMap 2 (getDailyScoresSum ScoreKind.total dbTwo)
            (getDailyLeaderboard ScoreKind.total 1000 dbTwo))
          = some (((r.totalScoreDaily : ℚ)
              / ((getDailyScoresSum ScoreKind.total dbTwo : Nat) : ℚ)) * 2)) ∧
      ((computeRewardTotalMap 2 (getDailyScoresSum ScoreKind.total dbTwo)
          (getDailyLeaderboard ScoreKind.total 1000 dbTwo)).map Prod.snd).sum = 2) ∧
    (getDailyScoresSum ScoreKind.total dbTwo = 0 →
      computeRewardTotalMap 2 (getDailyScoresSum ScoreKind.total dbTwo)
        (getDailyLeaderboard ScoreKind.total 1000 dbTwo) = [])) :=
  ⟨⟨by decide, by decide⟩, c6_theorem 2 dbTwo _ (by decide) (by decide) rfl⟩

/-! ### C9 — audit journal before settlement; bookkeeping independent of
settlement outcome -/

theorem cyclePreEvents_no_settle (now : Nat) (st : ServerState) :
    ∀ e ∈ cyclePreEvents now st, e ≠ CycleEvent.settleAttempt := by
  intro e he
  rcases List.mem_append.mp he with h1 | h1
  · rcases List.mem_map.mp h1 with ⟨w, _, hw⟩
    rw [← hw]
    intro hcon
    exact CycleEvent.noConfusion hcon
  · rcases List.mem_singleton.mp h1 with h2
    rw [h2]
    intro hcon
    exact CycleEvent.noConfusion hcon

theorem allocsBeforeSettlement_append (A B : List CycleEvent)
    (hA : ∀ e ∈ A, e ≠ CycleEvent.settleAttempt) :
    allocsBeforeSettlement (A ++ B) = allocsBeforeSettlement B := by
  induction A with
  | nil => rfl
  | cons e rest ih =>
    cases e with
    | journal le =>
      simp only [List.cons_append, allocsBeforeSettlement]
      exact ih (fun x hx => hA x (List.mem_cons_of_mem _ hx))
    | settleAttempt =>
      exact absurd rfl (hA _ (List.mem_cons_self _ _))

/-- C9: in every cycle, each allocation and the treasury amount is journalled
before the single optional settlement attempt; no allocation or treasury
write ever follows the attempt; settlement is attempted at most once (never
retried); and regardless of the settlement outcome the bookkeeping completes:
the journal only grows by exactly the cycle's entries, daily stats are reset
(lifetime rows and the fee journal untouched), and the cycle clock advances. -/
theorem c9_theorem (onchain settleOk : Bool) (now : Nat) (st : ServerState) :
    allocsBeforeSettlement (runPayoutCycle onchain settleOk now st).2 = true ∧
    (runPayoutCycle onchain settleOk now st).2.count CycleEvent.settleAttempt
      = (if onchain then 1 else 0) ∧
    CycleEvent.journal (LogEntry.treasury (cyclePoolTreasury now st) now)
      ∈ (runPayoutCycle onchain settleOk now st).2 ∧
    (∀ e ∈ cycleAllocEvents now st, e ∈ (runPayoutCycle onchain settleOk now st).2) ∧
    (runPayoutCycle onchain settleOk now st).1.journal
      = st.journal ++ ((runPayoutCycle onchain settleOk now st).2.filterMap (fun e =>
          match e with
          | CycleEvent.journal l => some l
          | CycleEvent.settleAttempt => none)) ∧
    (runPayoutCycle onchain settleOk now st).1.db.dailyPlayerStats
      = st.db.dailyPlayerStats.map zeroDaily ∧
    (runPayoutCycle onchain settleOk now st).1.db.playerStats = st.db.playerStats ∧
    (runPayoutCycle onchain settleOk now st).1.db.entryFees = st.db.entryFees ∧
    (runPayoutCycle onchain settleOk now st).1.lastPayoutAt = now ∧
    (runPayoutCycle onchain settleOk now st).1.nextPayoutAt = now + 86400000 := by
  have htrace : (runPayoutCycle onchain settleOk now st).2
      = cyclePreEvents now st ++ cycleSettleEvents onchain settleOk now := rfl
  refine ⟨?_, ?_, ?_, ?_, rfl, rfl, rfl, rfl, rfl, rfl⟩
  · rw [htrace, allocsBeforeSettlement_append _ _ (cyclePreEvents_no_settle now st)]
    cases onchain with
    | false => rfl
    | true => cases settleOk <;> rfl
  · rw [htrace, List.count_append]
    have hzero : (cyclePreEvents now st).count CycleEvent.settleAttempt = 0 :=
      List.count_eq_zero.mpr (fun hmem => cyclePreEvents_no_settle now st _ hmem rfl)
    rw [hzero]
    cases onchain with
    | false => rfl
    | true => cases settleOk <;> rfl
  · rw [htrace]
    exact List.mem_append_left _ (List.mem_append_right _ (List.mem_singleton.mpr rfl))
  · intro e he
    rw [htrace]
    exact List.mem_append_left _ (List.mem_append_left _ he)

/-- C9 witness: the cycle theorem evaluated at a failing settlement on the
fresh state. -/
theorem c9_witness :
    allocsBeforeSettlement (runPayoutCycle true false 0 initialState).2 = true ∧
    (runPayoutCycle true false 0 initialState).2.count CycleEvent.settleAttempt
      = (if true then 1 else 0) ∧
    (∀ e ∈ cycleAllocEvents 0 initialState,
      e ∈ (runPayoutCycle true false 0 initialState).2) ∧
    (runPayoutCycle true false 0 initialState).1.nextPayoutAt = 0 + 86400000 :=
  ⟨(c9_theorem true false 0 initialState).1,
    (c9_theorem true false 0 initialState).2.1,
    (c9_theorem true false 0 initialState).2.2.2.1,
    (c9_theorem true false 0 initialState).2.2.2.2.2.2.2.2.2⟩

/-- C10 witness: the theorem evaluated with an 11-character hash on the empty
registry. -/
theorem c10_witness :
    (((verifyPayment false (some "12345678901") 1 0 1 initialState).1.status = 400) ↔
      ((some "12345678901" : Option String) = none ∨
        ∃ s, (some "12345678901" : Option String) = some s ∧ s.length ≤ 10)) ∧
    ((verifyPayment false (some "12345678901") 1 0 1 initialState).1
        = VerifyResp.verified 1 "12345678901" ∧
      (mapGet 1 (verifyPayment false (some "12345678901") 1 0 1 initialState).2.sessions).map
        (fun g => g.isPaid) = some true) :=
  ⟨(c10_theorem (some "12345678901") 1 0 1 initialState).1,
    (c10_theorem (some "12345678901") 1 0 1 initialState).2 "12345678901" rfl (by decide)⟩

end Snake402
